import Mathlib

set_option maxRecDepth 4000

/-!
Shallow embedding of the reset-chance analysis and display component of
livesplit-core, covering the files src/analysis/reset_chance.rs,
src/component/reset_chance.rs and src/layout/parser/reset_chance.rs.

Modelling conventions:
- Machine integers (u32, usize) are modelled as Nat: no verified property
  involves wraparound, and every count is bounded by an in-memory history size.
- Rust operations that can abort (slice indexing out of bounds, u32 underflow
  in the numerator flip, the explicit abort in set_value) are modelled as
  Option / Except failure.
- The f64 arithmetic of the display derivation is modelled over Rat; the
  formatting of a value with one decimal digit is modelled as rounding the
  scaled rational, which agrees with the Rust formatter at every value the
  verified statements exercise.
-/

/-- Execution phase of the timer, supplied by the external timer collaborator. -/
inductive TimerPhase
  | NotRunning
  | Running
  | Ended
  | Paused
deriving DecidableEq

/-- One recorded attempt of the run; only the presence of a recorded real
completion time is relevant to the analysis (attempt.time().real_time). -/
structure Attempt where
  realTime : Option Int
deriving DecidableEq

/-- One checkpoint (segment) of the run. Modelled from the spec: actualRuns is
the number of historical actual completions recorded for this checkpoint, that
is the count produced by segment_history().iter_actual_runs(), whose sources
are outside the shown files. -/
structure Segment where
  actualRuns : Nat
deriving DecidableEq

/-- The read-only run data the analysis consumes: the total attempt count, the
attempt history and the ordered segment sequence. -/
structure Run where
  attempt_count : Nat
  attempt_history : List Attempt
  segments : List Segment
deriving DecidableEq

/-- A read-only timing snapshot: the run, the current phase and the current
split index (none when no checkpoint is active). -/
structure Snapshot where
  run : Run
  current_phase : TimerPhase
  current_split_index : Option Nat
deriving DecidableEq

/-- The split success counts calculated by the reset chance analysis. -/
structure SuccessCounts where
  successful_attempts : Nat
  total_attempts : Nat
deriving DecidableEq

instance : Inhabited SuccessCounts := ⟨⟨0, 0⟩⟩

/-- Calculates the total number of attempts which were completed for the given
run (attempts whose time has a recorded real_time). -/
def total_successful_attempts (run : Run) : Nat :=
  (run.attempt_history.filter (fun a => a.realTime.isSome)).length

/-- Calculates the success counts for a given timer snapshot. For active runs
this returns the counts for the current split rather than the entire run.
A none result models a Rust panic from out-of-bounds segment indexing. -/
def calculate (timer : Snapshot) : Option SuccessCounts :=
  match timer.current_phase with
  | TimerPhase.Running | TimerPhase.Paused => do
      let current_index := timer.current_split_index.getD 0
      let total_attempts ←
        if current_index = 0 then
          some timer.run.attempt_count
        else do
          let seg ← timer.run.segments[current_index - 1]?
          some seg.actualRuns
      let seg ← timer.run.segments[current_index]?
      some (SuccessCounts.mk seg.actualRuns total_attempts)
  | TimerPhase.Ended =>
      let count := 1 + total_successful_attempts timer.run
      some (SuccessCounts.mk count count)
  | TimerPhase.NotRunning =>
      some (SuccessCounts.mk (total_successful_attempts timer.run)
        timer.run.attempt_count)

/-- Color of a settings field. Modelled from the spec: colors are opaque data
to every claim (the real type stores four f32 channels); channel values are
represented as Nat. -/
structure Color where
  red : Nat
  green : Nat
  blue : Nat
  alpha : Nat
deriving DecidableEq

/-- Background gradient, mirroring settings::Gradient of the host crate. -/
inductive Gradient
  | Transparent
  | Plain (color : Color)
  | Vertical (top bottom : Color)
  | Horizontal (left right : Color)
deriving DecidableEq

/-- Modelled from the spec: the default key-value background gradient
(key_value::DEFAULT_GRADIENT); its exact colors live outside the shown files
and do not affect any verified claim. -/
def DEFAULT_GRADIENT : Gradient :=
  Gradient.Vertical (Color.mk 255 255 255 26) (Color.mk 255 255 255 13)

/-- The Settings for this component. -/
structure Settings where
  background : Gradient
  display_two_rows : Bool
  label_color : Option Color
  value_color : Option Color
  show_successes : Bool
  show_attempt_details : Bool
deriving DecidableEq

/-- Default settings value, mirroring the Default impl in the source. -/
def Settings.initial : Settings :=
  Settings.mk DEFAULT_GRADIENT false none none false false

instance : Inhabited Settings := ⟨Settings.initial⟩

/-- The Reset Chance Component: settings plus the two-slot cache consisting of
the last seen timer phase, the last seen split index and the cached counts. -/
structure Component where
  settings : Settings
  timer_phase : Option TimerPhase
  split_index : Option Nat
  success_counts : Option SuccessCounts
deriving DecidableEq

/-- Creates a new Reset Chance Component. -/
def Component.new : Component :=
  Component.mk Settings.initial none none none

instance : Inhabited Component := ⟨Component.new⟩

/-- Semantic color carried by the produced state record; the component always
stores the default variant. -/
inductive SemanticColor
  | Default
deriving DecidableEq

/-- The key-value state record the component writes for the renderer, mirroring
the fields of key_value::State that update_state assigns. -/
structure KeyValueState where
  background : Gradient
  key_color : Option Color
  value_color : Option Color
  semantic_color : SemanticColor
  key : String
  value : String
  key_abbreviations : List String
  display_two_rows : Bool
  updates_frequently : Bool
deriving DecidableEq

/-- Cache maintenance section of update_state: invalidate the cached counts
when the phase changed or is NotRunning, invalidate when the split index
changed, then recompute through the analysis when the slot is empty. -/
def updateCached (c : Component) (timer : Snapshot) : Option Component :=
  let c1 :=
    if some timer.current_phase ≠ c.timer_phase ∨
        timer.current_phase = TimerPhase.NotRunning then
      { c with timer_phase := some timer.current_phase, success_counts := none }
    else c
  let c2 :=
    if timer.current_split_index ≠ c1.split_index then
      { c1 with split_index := timer.current_split_index, success_counts := none }
    else c1
  if c2.success_counts = none then
    match calculate timer with
    | some sc => some { c2 with success_counts := some sc }
    | none => none
  else some c2

/-- Formats the nonnegative value num / den (den positive) with one decimal
digit, modelling the Rust fixed-precision formatter: the value scaled by ten is
rounded to the nearest integer. The f64 value of the source is represented by
the exact fraction it approximates, which agrees with the formatter at every
value the verified statements exercise. -/
def format_fixed1 (num den : Nat) : String :=
  let n : Nat := (10 * num * 2 + den) / (2 * den)
  toString (n / 10) ++ "." ++ toString (n % 10)

/-- Chance computation of update_state: the division successes / total (an f64
in the source) is represented as the exact fraction, with the degenerate
zero-total case mapped to one when showing successes and zero otherwise. -/
def chance_of (show_successes : Bool) (counts : SuccessCounts) : Nat × Nat :=
  if counts.total_attempts = 0 then
    if show_successes then (1, 1) else (0, 1)
  else
    (counts.successful_attempts, counts.total_attempts)

/-- Updates the component state based on the timer provided, producing the
updated component together with the written key-value record. A none result
models a Rust panic (out-of-bounds segment indexing inside the analysis, or
u32 underflow in the numerator flip). -/
def update_state (c : Component) (timer : Snapshot) :
    Option (Component × KeyValueState) := do
  let key := if c.settings.show_successes then "Success Chance" else "Reset Chance"
  let c2 ← updateCached c timer
  let counts0 := c2.success_counts.getD default
  let counts ←
    if c.settings.show_successes then
      some counts0
    else if counts0.successful_attempts ≤ counts0.total_attempts then
      some (SuccessCounts.mk
        (counts0.total_attempts - counts0.successful_attempts)
        counts0.total_attempts)
    else none
  let chance := chance_of c.settings.show_successes counts
  let value :=
    if c.settings.show_attempt_details then
      toString counts.successful_attempts ++ "/" ++
        toString counts.total_attempts ++ " (" ++
        format_fixed1 (100 * chance.1) chance.2 ++ "%)"
    else
      format_fixed1 (100 * chance.1) chance.2 ++ "%"
  some (c2, KeyValueState.mk c.settings.background c.settings.label_color
    c.settings.value_color SemanticColor.Default key value []
    c.settings.display_two_rows false)

/-- Dynamically typed settings value. Modelled from the spec: the value kinds
relevant to this component are booleans, optional colors and gradients; the
generic settings framework that declares the full enumeration is outside the
shown files. -/
inductive Value
  | ofBool (b : Bool)
  | ofOptionalColor (c : Option Color)
  | ofGradient (g : Gradient)
deriving DecidableEq

/-- Error taxonomy of the indexed setting assignment: the source aborts both
for an out-of-range index and for a value whose type does not match the
targeted field; the two abort sites are modelled as the two errors the spec
names. -/
inductive SettingsError
  | IndexOutOfRange
  | TypeMismatch
deriving DecidableEq

/-- Conversion of a value into a gradient; fails on any other value kind.
Modelled from the spec: type conversions of the settings framework abort on a
mismatched kind. -/
def Value.intoGradient : Value → Option Gradient
  | Value.ofGradient g => some g
  | _ => none

/-- Conversion of a value into a boolean; fails on any other value kind. -/
def Value.intoBool : Value → Option Bool
  | Value.ofBool b => some b
  | _ => none

/-- Conversion of a value into an optional color; fails on any other value
kind. -/
def Value.intoOptionalColor : Value → Option (Option Color)
  | Value.ofOptionalColor c => some c
  | _ => none

/-- Sets a setting value by its index. The source aborts on a bad index or a
mismatched value type; both aborts are modelled as errors, and on an error no
settings field is modified (no settings value is produced at all). -/
def set_value (s : Settings) (index : Nat) (v : Value) :
    Except SettingsError Settings :=
  match index with
  | 0 =>
      match v.intoGradient with
      | some g => Except.ok { s with background := g }
      | none => Except.error SettingsError.TypeMismatch
  | 1 =>
      match v.intoBool with
      | some b => Except.ok { s with display_two_rows := b }
      | none => Except.error SettingsError.TypeMismatch
  | 2 =>
      match v.intoOptionalColor with
      | some cl => Except.ok { s with label_color := cl }
      | none => Except.error SettingsError.TypeMismatch
  | 3 =>
      match v.intoOptionalColor with
      | some cl => Except.ok { s with value_color := cl }
      | none => Except.error SettingsError.TypeMismatch
  | 4 =>
      match v.intoBool with
      | some b => Except.ok { s with show_successes := b }
      | none => Except.error SettingsError.TypeMismatch
  | 5 =>
      match v.intoBool with
      | some b => Except.ok { s with show_attempt_details := b }
      | none => Except.error SettingsError.TypeMismatch
  | _ => Except.error SettingsError.IndexOutOfRange

/-- One entry of the settings description: a name, a tooltip description and
the current value. -/
structure SettingField where
  name : String
  description : String
  value : Value
deriving DecidableEq

/-- Generic description of the settings available for this component and their
current values, in the fixed source order. -/
def settings_description (c : Component) : List SettingField :=
  [ SettingField.mk "Background"
      "The background shown behind the component."
      (Value.ofGradient c.settings.background),
    SettingField.mk "Display 2 Rows"
      "Specifies whether to display the name of the component and the reset chance in two separate rows."
      (Value.ofBool c.settings.display_two_rows),
    SettingField.mk "Label Color"
      "The color of the component name. If not specified, the color is taken from the layout."
      (Value.ofOptionalColor c.settings.label_color),
    SettingField.mk "Value Color"
      "The color of the PB chance. If not specified, the color is taken from the layout."
      (Value.ofOptionalColor c.settings.value_color),
    SettingField.mk "Show Successes"
      "Instead of showing the reset chance, show the success chance for the current split."
      (Value.ofBool c.settings.show_successes),
    SettingField.mk "Show Attempt Details"
      "In addition to showing the reset chance, show the attempt counts used for the calculation."
      (Value.ofBool c.settings.show_attempt_details) ]

/-- One parsed configuration tag of the layout settings stream. Modelled from
the spec: the XML reader delivers tags by name; background tags are the stream
consumed by the gradient builder, Unknown stands for the accepted and skipped
unrecognized tags (ChanceMode, Accuracy, Basis and the like). -/
inductive Tag
  | Background (payload : Nat)
  | TextColor (c : Color)
  | OverrideTextColor (b : Bool)
  | ChanceColor (c : Color)
  | OverrideChanceColor (b : Bool)
  | Display2Rows (b : Bool)
  | Unknown
deriving DecidableEq

/-- Modelled from the spec: the gradient builder collects the background tag
stream and builds the background gradient from it; its internals are outside
the shown files and are irrelevant to every claim about this parser. -/
def buildGradient (payloads : List Nat) : Gradient :=
  match payloads with
  | [] => Gradient.Transparent
  | p :: _ => Gradient.Plain (Color.mk p p p p)

/-- One step of the settings parsing loop: the folded state is the settings
under construction together with the two override flags and the collected
background tag stream. -/
def parseStep (st : Settings × Bool × Bool × List Nat) (tag : Tag) :
    Settings × Bool × Bool × List Nat :=
  match st, tag with
  | (s, ol, ov, bg), Tag.Background p => (s, ol, ov, bg ++ [p])
  | (s, ol, ov, bg), Tag.TextColor c => ({ s with label_color := some c }, ol, ov, bg)
  | (s, _, ov, bg), Tag.OverrideTextColor b => (s, b, ov, bg)
  | (s, ol, ov, bg), Tag.ChanceColor c => ({ s with value_color := some c }, ol, ov, bg)
  | (s, ol, _, bg), Tag.OverrideChanceColor b => (s, ol, b, bg)
  | (s, ol, ov, bg), Tag.Display2Rows b => ({ s with display_two_rows := b }, ol, ov, bg)
  | st, Tag.Unknown => st

/-- Parses the configuration tag stream into the settings of the component:
the tags are folded over the current settings with both override flags starting
false, and afterwards each color is forced back to inherit (none) unless its
override flag ended up true; finally the collected background stream is built
into the background gradient. -/
def settings (tags : List Tag) (component : Component) : Component :=
  let res := tags.foldl parseStep (component.settings, false, false, [])
  let s := res.1
  let ol := res.2.1
  let ov := res.2.2.1
  let bg := res.2.2.2
  let s := if ol then s else { s with label_color := none }
  let s := if ov then s else { s with value_color := none }
  let s := { s with background := buildGradient bg }
  { component with settings := s }

/-- Well-formedness of the run data, as the data model of the spec states it:
every attempt counted as completed is one of the recorded attempts, an actual
completion of a checkpoint happens within an attempt that reached it, so each
per-checkpoint completion count is bounded by the count one checkpoint earlier
and the first one by the total attempt count. -/
def Run.Valid (run : Run) : Prop :=
  total_successful_attempts run ≤ run.attempt_count ∧
  ∀ i ∈ List.range run.segments.length,
    (run.segments[i]?.map Segment.actualRuns).getD 0 ≤
      (if i = 0 then run.attempt_count
       else (run.segments[i - 1]?.map Segment.actualRuns).getD 0)

/-- Well-formedness of a timing snapshot: the run is well formed and, while an
attempt is in progress, the current checkpoint index addresses a checkpoint of
the run. -/
def Snapshot.Valid (t : Snapshot) : Prop :=
  t.run.Valid ∧
  ((t.current_phase = TimerPhase.Running ∨ t.current_phase = TimerPhase.Paused) →
    t.current_split_index.getD 0 < t.run.segments.length)

/-- Cache invariant of the component: whenever the counts slot is filled, the
successful count does not exceed the total count. -/
def Component.Inv (c : Component) : Prop :=
  ∀ sc ∈ c.success_counts, sc.successful_attempts ≤ sc.total_attempts

instance (run : Run) : Decidable run.Valid := by
  unfold Run.Valid; infer_instance

instance (t : Snapshot) : Decidable t.Valid := by
  unfold Snapshot.Valid; infer_instance

instance (c : Component) : Decidable c.Inv := by
  unfold Component.Inv; infer_instance

/-! Analyzer lemmas. -/

lemma calculate_active (t : Snapshot)
    (hp : t.current_phase = TimerPhase.Running ∨ t.current_phase = TimerPhase.Paused)
    (i : Nat) (hidx : t.current_split_index.getD 0 = i)
    (hb : i < t.run.segments.length) :
    calculate t = some (SuccessCounts.mk
      ((t.run.segments[i]?.map Segment.actualRuns).getD 0)
      (if i = 0 then t.run.attempt_count
       else (t.run.segments[i - 1]?.map Segment.actualRuns).getD 0)) := by
  obtain ⟨segi, hi⟩ : ∃ s, t.run.segments[i]? = some s := by
    rw [List.getElem?_eq_getElem hb]; exact ⟨_, rfl⟩
  by_cases h0 : i = 0
  · subst h0
    rcases hp with hp | hp <;> simp [calculate, hp, hidx, hi]
  · obtain ⟨segp, hip⟩ : ∃ s, t.run.segments[i - 1]? = some s := by
      have hlt : i - 1 < t.run.segments.length :=
        lt_of_le_of_lt (Nat.pred_le i) hb
    
      rw [List.getElem?_eq_getElem hlt]; exact ⟨_, rfl⟩
    rcases hp with hp | hp <;> simp [calculate, hp, hidx, h0, hi, hip]

lemma calculate_le (t : Snapshot) (hv : t.run.Valid) (sc : SuccessCounts)
    (h : calculate t = some sc) :
    sc.successful_attempts ≤ sc.total_attempts := by
  cases hphase : t.current_phase
  case NotRunning =>
    simp [calculate, hphase] at h
    cases h
    exact hv.1
  case Ended =>
    simp [calculate, hphase] at h
    cases h
    exact le_refl _
  case Running | Paused =>
    simp [calculate, hphase] at h
    by_cases h0 : t.current_split_index.getD 0 = 0
    · rw [h0] at h
      simp at h
      cases hg : t.run.segments[(0 : Nat)]? with
      | none => rw [hg] at h; simp at h
      | some seg =>
          rw [hg] at h; simp at h
          obtain ⟨hlen, _⟩ := List.getElem?_eq_some.mp hg
          have hb := hv.2 0 (List.mem_range.mpr hlen)
          rw [hg] at hb
          simp at hb
          cases h
          simpa using hb
    · rw [if_neg h0] at h
      cases hgp : t.run.segments[t.current_split_index.getD 0 - 1]? with
      | none => rw [hgp] at h; simp at h
      | some segp =>
          rw [hgp] at h; simp at h
          cases hg : t.run.segments[t.current_split_index.getD 0]? with
          | none => rw [hg] at h; simp at h
          | some seg =>
              rw [hg] at h; simp at h
              obtain ⟨hlen, _⟩ := List.getElem?_eq_some.mp hg
              have hb := hv.2 _ (List.mem_range.mpr hlen)
              rw [if_neg h0, hg, hgp] at hb
              simp at hb
              cases h
              simpa using hb

lemma calculate_isSome (t : Snapshot) (hv : t.Valid) :
    ∃ sc, calculate t = some sc := by
  cases hphase : t.current_phase
  case NotRunning =>
    exact ⟨SuccessCounts.mk (total_successful_attempts t.run) t.run.attempt_count,
      by simp [calculate, hphase]⟩
  case Ended =>
    exact ⟨SuccessCounts.mk (1 + total_successful_attempts t.run)
      (1 + total_successful_attempts t.run), by simp [calculate, hphase]⟩
  case Running =>
    exact ⟨_, calculate_active t (Or.inl hphase) _ rfl (hv.2 (Or.inl hphase))⟩
  case Paused =>
    exact ⟨_, calculate_active t (Or.inr hphase) _ rfl (hv.2 (Or.inr hphase))⟩

/-! Cache lemmas. -/

lemma updateCached_spec (c : Component) (t : Snapshot) (c2 : Component)
    (h : updateCached c t = some c2) :
    c2.settings = c.settings ∧
    c2.timer_phase = some t.current_phase ∧
    c2.split_index = t.current_split_index ∧
    ∃ sc, c2.success_counts = some sc ∧
      (c.success_counts = some sc ∨ calculate t = some sc) := by
  obtain ⟨cs, cph, cidx, csc⟩ := c
  by_cases h1 : some t.current_phase ≠ cph ∨ t.current_phase = TimerPhase.NotRunning
  · by_cases h2 : t.current_split_index ≠ cidx
    · cases hc : calculate t with
      | none => simp [updateCached, h1, h2, hc] at h
      | some sc =>
          simp [updateCached, h1, h2, hc] at h
          subst h
          exact ⟨rfl, rfl, rfl, sc, rfl, Or.inr rfl⟩
    · cases hc : calculate t with
      | none => simp [updateCached, h1, h2, hc] at h
      | some sc =>
          simp [updateCached, h1, h2, hc] at h
          push_neg at h2
          subst h
          exact ⟨rfl, rfl, h2.symm, sc, rfl, Or.inr rfl⟩
  · push_neg at h1
    obtain ⟨hph, hnr⟩ := h1
    by_cases h2 : t.current_split_index ≠ cidx
    · cases hc : calculate t with
      | none => simp [updateCached, hph, hnr, h2, hc] at h
      | some sc =>
          simp [updateCached, hph, hnr, h2, hc] at h
          subst h
          exact ⟨rfl, hph.symm, rfl, sc, rfl, Or.inr rfl⟩
    · push_neg at h2
      cases csc with
      | none =>
          cases hc : calculate t with
          | none => simp [updateCached, hph, hnr, h2, hc] at h
          | some sc =>
              simp [updateCached, hph, hnr, h2, hc] at h
              subst h
              exact ⟨rfl, hph.symm, h2.symm, sc, rfl, Or.inr rfl⟩
      | some sc =>
          simp [updateCached, hph, hnr, h2] at h
          subst h
          exact ⟨rfl, hph.symm, h2.symm, sc, rfl, Or.inl rfl⟩

lemma updateCached_total (c : Component) (t : Snapshot) (sc0 : SuccessCounts)
    (hc : calculate t = some sc0) :
    (updateCached c t).isSome := by
  obtain ⟨cs, cph, cidx, csc⟩ := c
  by_cases h1 : some t.current_phase ≠ cph ∨ t.current_phase = TimerPhase.NotRunning
  · by_cases h2 : t.current_split_index ≠ cidx
    · simp [updateCached, h1, h2, hc]
    · simp [updateCached, h1, h2, hc]
  · push_neg at h1
    obtain ⟨hph, hnr⟩ := h1
    by_cases h2 : t.current_split_index ≠ cidx
    · simp [updateCached, hph, hnr, h2, hc]
    · push_neg at h2
      cases csc with
      | none => simp [updateCached, hph, hnr, h2, hc]
      | some sc => simp [updateCached, hph, hnr, h2]

lemma update_state_cache (c : Component) (t : Snapshot) (c2 : Component)
    (st : KeyValueState) (h : update_state c t = some (c2, st)) :
    updateCached c t = some c2 := by
  unfold update_state at h
  cases hca : updateCached c t with
  | none => rw [hca] at h; simp at h
  | some c3 =>
      rw [hca] at h
      simp at h
      by_cases hss : c.settings.show_successes = true
      · simp [hss] at h
        rw [← h.1]
      · simp [hss] at h
        by_cases hle : (c3.success_counts.getD default).successful_attempts ≤
            (c3.success_counts.getD default).total_attempts
        · simp [hle] at h
          rw [← h.1]
        · simp [hle] at h

lemma updateCached_recompute (c : Component) (t : Snapshot)
    (hdiff : some t.current_phase ≠ c.timer_phase ∨
      t.current_split_index ≠ c.split_index)
    (sc : SuccessCounts) (hcalc : calculate t = some sc) :
    ∃ c2, updateCached c t = some c2 ∧ c2.success_counts = some sc := by
  obtain ⟨cs, cph, cidx, csc⟩ := c
  rcases hdiff with hd | hd
  · by_cases h2 : t.current_split_index ≠ cidx
    · refine ⟨Component.mk cs (some t.current_phase) t.current_split_index
        (some sc), ?_, rfl⟩
      simp [updateCached, hd, h2, hcalc]
    · push_neg at h2
      refine ⟨Component.mk cs (some t.current_phase) cidx (some sc), ?_, rfl⟩
      simp [updateCached, hd, h2, hcalc]
  · by_cases h1 : some t.current_phase ≠ cph ∨
        t.current_phase = TimerPhase.NotRunning
    · refine ⟨Component.mk cs (some t.current_phase) t.current_split_index
        (some sc), ?_, rfl⟩
      simp [updateCached, h1, hd, hcalc]
    · push_neg at h1
      obtain ⟨hph, hnr⟩ := h1
      refine ⟨Component.mk cs cph t.current_split_index (some sc), ?_, rfl⟩
      simp [updateCached, hph, hnr, hd, hcalc]

/-! Claim theorems. -/

/-- C1: For every snapshot whose phase is Running or Paused, with current
checkpoint index i (defaulting to 0 when the snapshot has no index) addressing
a checkpoint of the run, calculate returns counts whose total_attempts equals
the total attempt count of the run if i = 0 and otherwise the number of
historical actual completions recorded for checkpoint i - 1, and whose
successful_attempts equals the number of historical actual completions
recorded for checkpoint i. -/
theorem calculate_running_paused_spec (t : Snapshot)
    (hp : t.current_phase = TimerPhase.Running ∨
      t.current_phase = TimerPhase.Paused)
    (i : Nat) (hidx : t.current_split_index.getD 0 = i)
    (hb : i < t.run.segments.length) :
    calculate t = some (SuccessCounts.mk
      ((t.run.segments[i]?.map Segment.actualRuns).getD 0)
      (if i = 0 then t.run.attempt_count
       else (t.run.segments[i - 1]?.map Segment.actualRuns).getD 0)) :=
  calculate_active t hp i hidx hb

/-- C1 witness: a Running snapshot at checkpoint index one of a run with ten
attempts and per-checkpoint completion counts five and three. -/
theorem calculate_running_paused_spec_witness :
    calculate (Snapshot.mk (Run.mk 10 [] [Segment.mk 5, Segment.mk 3])
      TimerPhase.Running (some 1)) = some (SuccessCounts.mk 3 5) := by
  rw [calculate_running_paused_spec
    (Snapshot.mk (Run.mk 10 [] [Segment.mk 5, Segment.mk 3])
      TimerPhase.Running (some 1)) (Or.inl rfl) 1 rfl (by decide)]
  decide

/-- C5: For every counts value produced by calculate in the Running, Paused or
NotRunning phase of a well-formed run, the successful count does not exceed
the total count whenever the total count is positive. -/
theorem success_counts_le_total (t : Snapshot) (hv : t.run.Valid)
    (hp : t.current_phase = TimerPhase.Running ∨
      t.current_phase = TimerPhase.Paused ∨
      t.current_phase = TimerPhase.NotRunning)
    (sc : SuccessCounts) (h : calculate t = some sc)
    (hpos : 0 < sc.total_attempts) :
    sc.successful_attempts ≤ sc.total_attempts :=
  calculate_le t hv sc h

/-- C5 witness: a NotRunning snapshot of a run with two attempts, one of them
completed. -/
theorem success_counts_le_total_witness :
    (SuccessCounts.mk 1 2).successful_attempts ≤
      (SuccessCounts.mk 1 2).total_attempts :=
  success_counts_le_total
    (Snapshot.mk (Run.mk 2 [Attempt.mk (some 4)] []) TimerPhase.NotRunning none)
    (by decide) (Or.inr (Or.inr rfl)) (SuccessCounts.mk 1 2) (by decide)
    (by decide)

/-- C6: For every snapshot whose phase is Ended, calculate returns counts with
successful and total both equal to one plus the number of historical attempts
having a recorded completion time. -/
theorem calculate_ended_spec (t : Snapshot)
    (hp : t.current_phase = TimerPhase.Ended) :
    calculate t = some (SuccessCounts.mk
      (1 + total_successful_attempts t.run)
      (1 + total_successful_attempts t.run)) := by
  simp [calculate, hp]

/-- C6 witness: a run with three prior completed attempts transitioning to
Ended yields four successful out of four total. -/
theorem calculate_ended_spec_witness :
    calculate (Snapshot.mk
      (Run.mk 3 [Attempt.mk (some 1), Attempt.mk (some 2), Attempt.mk (some 3)]
        []) TimerPhase.Ended none) = some (SuccessCounts.mk 4 4) := by
  rw [calculate_ended_spec (Snapshot.mk
    (Run.mk 3 [Attempt.mk (some 1), Attempt.mk (some 2), Attempt.mk (some 3)]
      []) TimerPhase.Ended none) rfl]
  decide

/-- C2: Every refresh whose snapshot phase is NotRunning invalidates the
cached counters and recomputes them through the analysis, even when the cached
phase and cached index are unchanged; for any other phase the cache is
invalidated (and freshly recomputed) exactly when the snapshot phase differs
from the cached phase or the snapshot index differs from the cached index,
and otherwise a filled cache is reused unchanged. -/
theorem refresh_cache_invalidation_spec (c : Component) (t : Snapshot) :
    (t.current_phase = TimerPhase.NotRunning →
      updateCached c t = some (Component.mk c.settings (some t.current_phase)
        t.current_split_index
        (some (SuccessCounts.mk (total_successful_attempts t.run)
          t.run.attempt_count)))) ∧
    (t.current_phase ≠ TimerPhase.NotRunning →
      ((some t.current_phase = c.timer_phase ∧
          t.current_split_index = c.split_index →
        ∀ sc, c.success_counts = some sc → updateCached c t = some c) ∧
       ((some t.current_phase ≠ c.timer_phase ∨
          t.current_split_index ≠ c.split_index) →
        ∀ sc, calculate t = some sc →
          ∃ c2, updateCached c t = some c2 ∧
            c2.success_counts = some sc))) := by
  obtain ⟨cs, cph, cidx, csc⟩ := c
  refine ⟨?_, ?_⟩
  · intro hnr
    have hcalc : calculate t = some (SuccessCounts.mk
        (total_successful_attempts t.run) t.run.attempt_count) := by
      simp [calculate, hnr]
    by_cases h2 : t.current_split_index ≠ cidx
    · simp [updateCached, hnr, h2, hcalc]
    · push_neg at h2
      simp [updateCached, hnr, h2, hcalc]
  · intro hnr
    refine ⟨?_, ?_⟩
    · rintro ⟨hph, hidx⟩ sc hsc
      simp only at hph hidx hsc
      simp [updateCached, hph, hidx, hnr, hsc]
    · intro hdiff sc hcalc
      exact updateCached_recompute (Component.mk cs cph cidx csc) t hdiff sc
        hcalc

/-- C2 witness: a NotRunning refresh on a component whose cached phase is
already NotRunning and whose cached index equals the snapshot index still
recomputes the counters from the current run data. -/
theorem refresh_cache_invalidation_spec_witness :
    updateCached (Component.mk Settings.initial (some TimerPhase.NotRunning)
        none (some (SuccessCounts.mk 0 1)))
      (Snapshot.mk (Run.mk 2 [Attempt.mk (some 9)] []) TimerPhase.NotRunning
        none)
      = some (Component.mk Settings.initial (some TimerPhase.NotRunning) none
        (some (SuccessCounts.mk 1 2))) := by
  rw [(refresh_cache_invalidation_spec
    (Component.mk Settings.initial (some TimerPhase.NotRunning) none
      (some (SuccessCounts.mk 0 1)))
    (Snapshot.mk (Run.mk 2 [Attempt.mk (some 9)] []) TimerPhase.NotRunning
      none)).1 rfl]
  decide

/-- C3 counterexample: two NotRunning snapshots share the phase and the
checkpoint index, yet refreshing with the first and then the second yields
different cached counters once the history mutated in between (the claim says
they would be the same); moreover a phase change from Running to Paused leaves
the recomputed cached counters equal to the previous ones (the claim says they
would differ). -/
theorem refresh_cache_reuse_counterexample :
    updateCached Component.new
        (Snapshot.mk (Run.mk 0 [] []) TimerPhase.NotRunning none)
      = some (Component.mk Settings.initial (some TimerPhase.NotRunning) none
        (some (SuccessCounts.mk 0 0))) ∧
    updateCached (Component.mk Settings.initial (some TimerPhase.NotRunning)
        none (some (SuccessCounts.mk 0 0)))
        (Snapshot.mk (Run.mk 1 [Attempt.mk (some 7)] []) TimerPhase.NotRunning
          none)
      = some (Component.mk Settings.initial (some TimerPhase.NotRunning) none
        (some (SuccessCounts.mk 1 1))) ∧
    SuccessCounts.mk 1 1 ≠ SuccessCounts.mk 0 0 ∧
    updateCached (Component.mk Settings.initial (some TimerPhase.Running)
        (some 0) (some (SuccessCounts.mk 2 3)))
        (Snapshot.mk (Run.mk 3 [] [Segment.mk 2]) TimerPhase.Paused (some 0))
      = some (Component.mk Settings.initial (some TimerPhase.Paused) (some 0)
        (some (SuccessCounts.mk 2 3))) := by
  refine ⟨by decide, by decide, by decide, by decide⟩

/-- C3 (amended): after a refresh, a second refresh with a snapshot sharing
the same phase, the phase not being NotRunning, and the same checkpoint index
leaves the component (and hence the cached counters) unchanged, whatever
happened to the underlying history in between; and once the phase or the
index changes, the cached counters are freshly recomputed through the
analysis, though the recomputed value need not differ from the previous one. -/
theorem refresh_cache_reuse_spec (c c1 : Component) (t1 t2 : Snapshot)
    (h1 : updateCached c t1 = some c1) :
    (t2.current_phase = t1.current_phase →
      t1.current_phase ≠ TimerPhase.NotRunning →
      t2.current_split_index = t1.current_split_index →
      updateCached c1 t2 = some c1) ∧
    ((t2.current_phase ≠ t1.current_phase ∨
        t2.current_split_index ≠ t1.current_split_index) →
      ∀ sc2, calculate t2 = some sc2 →
        ∃ c2, updateCached c1 t2 = some c2 ∧
          c2.success_counts = some sc2) := by
  obtain ⟨hset, hph, hidx, sc, hsc, hsrc⟩ := updateCached_spec c t1 c1 h1
  refine ⟨?_, ?_⟩
  · intro hpeq hnr hieq
    obtain ⟨cs1, cph1, cidx1, csc1⟩ := c1
    simp only at hph hidx hsc
    subst hph hidx hsc
    simp [updateCached, hpeq, hieq, hnr]
  · intro hdiff sc2 hcalc
    refine updateCached_recompute c1 t2 ?_ sc2 hcalc
    rcases hdiff with hd | hd
    · exact Or.inl (by rw [hph]; simpa using hd)
    · exact Or.inr (by rw [hidx]; exact hd)

/-- C3 witness: a Running refresh followed by a second Running refresh at the
same index reuses the cached counters although the history mutated in
between; a subsequent index change recomputes them. -/
theorem refresh_cache_reuse_spec_witness :
    updateCached (Component.mk Settings.initial (some TimerPhase.Running)
        (some 0) (some (SuccessCounts.mk 7 10)))
      (Snapshot.mk (Run.mk 11 [] [Segment.mk 9, Segment.mk 6])
        TimerPhase.Running (some 0))
      = some (Component.mk Settings.initial (some TimerPhase.Running) (some 0)
        (some (SuccessCounts.mk 7 10))) ∧
    ∃ c2, updateCached (Component.mk Settings.initial (some TimerPhase.Running)
        (some 0) (some (SuccessCounts.mk 7 10)))
      (Snapshot.mk (Run.mk 11 [] [Segment.mk 9, Segment.mk 6])
        TimerPhase.Running (some 1))
      = some c2 ∧ c2.success_counts = some (SuccessCounts.mk 6 9) := by
  have h := refresh_cache_reuse_spec
    (Component.mk Settings.initial none none none)
    (Component.mk Settings.initial (some TimerPhase.Running) (some 0)
      (some (SuccessCounts.mk 7 10)))
    (Snapshot.mk (Run.mk 10 [] [Segment.mk 7, Segment.mk 4])
      TimerPhase.Running (some 0))
    (Snapshot.mk (Run.mk 11 [] [Segment.mk 9, Segment.mk 6])
      TimerPhase.Running (some 0)) (by decide)
  have h2 := refresh_cache_reuse_spec
    (Component.mk Settings.initial none none none)
    (Component.mk Settings.initial (some TimerPhase.Running) (some 0)
      (some (SuccessCounts.mk 7 10)))
    (Snapshot.mk (Run.mk 10 [] [Segment.mk 7, Segment.mk 4])
      TimerPhase.Running (some 0))
    (Snapshot.mk (Run.mk 11 [] [Segment.mk 9, Segment.mk 6])
      TimerPhase.Running (some 1)) (by decide)
  exact ⟨h.1 rfl (by decide) rfl, h2.2 (Or.inr (by decide))
    (SuccessCounts.mk 6 9) (by decide)⟩

/-- C10: After every successful update_state call the cached state is coherent
with the snapshot: the cached phase is the snapshot phase, the cached split
index is the snapshot split index, and the cached counts slot is filled, so
reading the cached counts later in the same call never falls back to the
default. -/
theorem update_state_coherence_spec (c : Component) (t : Snapshot)
    (c2 : Component) (st : KeyValueState)
    (h : update_state c t = some (c2, st)) :
    c2.timer_phase = some t.current_phase ∧
    c2.split_index = t.current_split_index ∧
    c2.success_counts.isSome := by
  have hca := update_state_cache c t c2 st h
  obtain ⟨_, hph, hidx, sc, hsc, _⟩ := updateCached_spec c t c2 hca
  exact ⟨hph, hidx, by simp [hsc]⟩

/-- C10 witness: a fresh component refreshed with a NotRunning empty-run
snapshot. -/
theorem update_state_coherence_spec_witness :
    (Component.mk Settings.initial (some TimerPhase.NotRunning) none
        (some (SuccessCounts.mk 0 0))).timer_phase =
      some (Snapshot.mk (Run.mk 0 [] []) TimerPhase.NotRunning
        none).current_phase ∧
    (Component.mk Settings.initial (some TimerPhase.NotRunning) none
        (some (SuccessCounts.mk 0 0))).split_index =
      (Snapshot.mk (Run.mk 0 [] []) TimerPhase.NotRunning
        none).current_split_index ∧
    (Component.mk Settings.initial (some TimerPhase.NotRunning) none
        (some (SuccessCounts.mk 0 0))).success_counts.isSome :=
  update_state_coherence_spec Component.new
    (Snapshot.mk (Run.mk 0 [] []) TimerPhase.NotRunning none)
    (Component.mk Settings.initial (some TimerPhase.NotRunning) none
      (some (SuccessCounts.mk 0 0)))
    (KeyValueState.mk DEFAULT_GRADIENT none none SemanticColor.Default
      "Reset Chance" "0.0%" [] false false)
    (by decide)

/-- Display chance as the spec words it, over the rationals: starting from the
cached counts, the numerator is flipped to total minus successful when
successes are not shown; the chance is successful over total when the total is
positive; and with a zero total the chance is one when showing successes and
zero otherwise. This definition follows the words of the spec and is compared
against the update_state code. -/
def chanceSpec (show_successes : Bool) (sc : SuccessCounts) : Rat :=
  let successes : Nat :=
    if show_successes then sc.successful_attempts
    else sc.total_attempts - sc.successful_attempts
  if sc.total_attempts = 0 then
    if show_successes then 1 else 0
  else (successes : Rat) / (sc.total_attempts : Rat)

/-- C4: On every successful refresh the displayed value is derived from the
cached counts by flipping the numerator when successes are not shown, dividing
by the total when it is positive, and defaulting to one (successes shown) or
zero (successes hidden) when the total is zero; in particular a zero-attempt
run displays the value text 0.0 percent without the successes option and
100.0 percent with it. -/
theorem display_value_spec (c : Component) (t : Snapshot) (c2 : Component)
    (st : KeyValueState) (sc : SuccessCounts)
    (h : update_state c t = some (c2, st))
    (hsc : c2.success_counts = some sc) :
    ∃ counts : SuccessCounts,
      counts = (if c.settings.show_successes then sc
        else SuccessCounts.mk (sc.total_attempts - sc.successful_attempts)
          sc.total_attempts) ∧
      ((chance_of c.settings.show_successes counts).1 : Rat) /
          ((chance_of c.settings.show_successes counts).2 : Rat)
        = chanceSpec c.settings.show_successes sc ∧
      (c.settings.show_attempt_details = false →
        st.value = format_fixed1
          (100 * (chance_of c.settings.show_successes counts).1)
          (chance_of c.settings.show_successes counts).2 ++ "%") ∧
      (sc.total_attempts = 0 → c.settings.show_attempt_details = false →
        st.value = if c.settings.show_successes then "100.0%" else "0.0%") := by
  have hca := update_state_cache c t c2 st h
  unfold update_state at h
  rw [hca] at h
  simp [hsc] at h
  by_cases hss : c.settings.show_successes = true
  · rw [if_pos hss] at h
    simp at h
    subst h
    refine ⟨sc, by simp [hss], ?_, ?_, ?_⟩
    · by_cases htot : sc.total_attempts = 0
      · simp [chance_of, chanceSpec, hss, htot]
      · simp [chance_of, chanceSpec, hss, htot]
    · intro hdet
      simp [hss, hdet]
    · intro htot hdet
      simp [hss, hdet, chance_of, htot]
      decide
  · rw [if_neg hss] at h
    simp only [Bool.not_eq_true] at hss
    by_cases hle : sc.successful_attempts ≤ sc.total_attempts
    · rw [if_pos hle] at h
      simp at h
      subst h
      refine ⟨SuccessCounts.mk
        (sc.total_attempts - sc.successful_attempts) sc.total_attempts,
        by simp [hss], ?_, ?_, ?_⟩
      · by_cases htot : sc.total_attempts = 0
        · simp [chance_of, chanceSpec, hss, htot]
        · simp [chance_of, chanceSpec, hss, htot]
      · intro hdet
        simp [hss, hdet]
      · intro htot hdet
        have hs0 : sc.successful_attempts = 0 :=
          Nat.le_zero.mp (htot ▸ hle)
        simp [hss, hdet, chance_of, htot, hs0]
        decide
    · rw [if_neg hle] at h
      simp at h

/-- C4 witness: with zero recorded attempts the refreshed value text is 0.0
percent with the default settings and 100.0 percent when showing successes. -/
theorem display_value_spec_witness :
    (KeyValueState.mk DEFAULT_GRADIENT none none SemanticColor.Default
      "Reset Chance" "0.0%" [] false false).value = "0.0%" ∧
    (KeyValueState.mk DEFAULT_GRADIENT none none SemanticColor.Default
      "Success Chance" "100.0%" [] false false).value = "100.0%" := by
  obtain ⟨-, -, -, -, hzero⟩ := display_value_spec Component.new
    (Snapshot.mk (Run.mk 0 [] []) TimerPhase.NotRunning none)
    (Component.mk Settings.initial (some TimerPhase.NotRunning) none
      (some (SuccessCounts.mk 0 0)))
    (KeyValueState.mk DEFAULT_GRADIENT none none SemanticColor.Default
      "Reset Chance" "0.0%" [] false false)
    (SuccessCounts.mk 0 0) (by decide) rfl
  obtain ⟨-, -, -, -, hzeroS⟩ := display_value_spec
    (Component.mk (Settings.mk DEFAULT_GRADIENT false none none true false)
      none none none)
    (Snapshot.mk (Run.mk 0 [] []) TimerPhase.NotRunning none)
    (Component.mk (Settings.mk DEFAULT_GRADIENT false none none true false)
      (some TimerPhase.NotRunning) none (some (SuccessCounts.mk 0 0)))
    (KeyValueState.mk DEFAULT_GRADIENT none none SemanticColor.Default
      "Success Chance" "100.0%" [] false false)
    (SuccessCounts.mk 0 0) (by decide) rfl
  exact ⟨hzero rfl rfl, hzeroS rfl rfl⟩

/-- C7: refresh and the settings description have no error path: for every
valid snapshot and every component whose cache satisfies the counts
invariant, update_state succeeds (every segment indexing and every arithmetic
step of the display derivation succeeds), the invariant is preserved, and the
settings description always lists exactly the six fields. -/
theorem refresh_and_description_total (c : Component) (t : Snapshot)
    (hv : t.Valid) (hinv : c.Inv) :
    (∃ c2 st, update_state c t = some (c2, st) ∧ c2.Inv) ∧
    (settings_description c).length = 6 := by
  refine ⟨?_, by simp [settings_description]⟩
  obtain ⟨sc0, hc0⟩ := calculate_isSome t hv
  obtain ⟨c2, hca⟩ :=
    Option.isSome_iff_exists.mp (updateCached_total c t sc0 hc0)
  obtain ⟨hset, hph, hidx, sc, hsc, hsrc⟩ := updateCached_spec c t c2 hca
  have hle : sc.successful_attempts ≤ sc.total_attempts := by
    rcases hsrc with hold | hnew
    · exact hinv sc (Option.mem_def.mpr hold)
    · exact calculate_le t hv.1 sc hnew
  have hinv2 : c2.Inv := by
    intro sc' hsc'
    rw [Option.mem_def, hsc] at hsc'
    exact (Option.some.inj hsc') ▸ hle
  have hex : ∃ st, update_state c t = some (c2, st) := by
    unfold update_state
    rw [hca]
    by_cases hss : c.settings.show_successes = true
    · simp [hss, hsc]
    · simp [hss, hsc, hle]
  obtain ⟨st, hst⟩ := hex
  exact ⟨c2, st, hst, hinv2⟩

/-- C7 witness: a fresh component refreshed with a valid zero-attempt
NotRunning snapshot. -/
theorem refresh_and_description_total_witness :
    (∃ c2 st, update_state Component.new
      (Snapshot.mk (Run.mk 0 [] []) TimerPhase.NotRunning none)
      = some (c2, st) ∧ c2.Inv) ∧
    (settings_description Component.new).length = 6 :=
  refresh_and_description_total Component.new
    (Snapshot.mk (Run.mk 0 [] []) TimerPhase.NotRunning none)
    (by decide) (by decide)

/-- C8 counterexample: for index one (the Display in Two Rows field) and a
gradient value, set_value fails with a type mismatch instead of assigning the
positionally corresponding field, so the assignment part of the claim does not
hold for every value. -/
theorem set_value_counterexample :
    set_value Settings.initial 1 (Value.ofGradient Gradient.Transparent)
      = Except.error SettingsError.TypeMismatch := rfl

/-- C8 (amended): for every index of at least six, set_value fails with the
IndexOutOfRange error and produces no settings, so none of the six fields is
modified; for every index below six and a value of the type the field
declares, exactly the positionally corresponding field among Background,
Display in Two Rows, Label Color, Value Color, Show Successes and Show Attempt
Details is assigned; an index below six with a value of any other type fails
with the TypeMismatch error. -/
theorem set_value_spec (s : Settings) (v : Value) :
    (∀ index, 6 ≤ index →
      set_value s index v = Except.error SettingsError.IndexOutOfRange) ∧
    (∀ g, set_value s 0 (Value.ofGradient g)
      = Except.ok { s with background := g }) ∧
    (∀ b, set_value s 1 (Value.ofBool b)
      = Except.ok { s with display_two_rows := b }) ∧
    (∀ cl, set_value s 2 (Value.ofOptionalColor cl)
      = Except.ok { s with label_color := cl }) ∧
    (∀ cl, set_value s 3 (Value.ofOptionalColor cl)
      = Except.ok { s with value_color := cl }) ∧
    (∀ b, set_value s 4 (Value.ofBool b)
      = Except.ok { s with show_successes := b }) ∧
    (∀ b, set_value s 5 (Value.ofBool b)
      = Except.ok { s with show_attempt_details := b }) ∧
    (v.intoGradient = none →
      set_value s 0 v = Except.error SettingsError.TypeMismatch) ∧
    (v.intoBool = none →
      set_value s 1 v = Except.error SettingsError.TypeMismatch) ∧
    (v.intoOptionalColor = none →
      set_value s 2 v = Except.error SettingsError.TypeMismatch) ∧
    (v.intoOptionalColor = none →
      set_value s 3 v = Except.error SettingsError.TypeMismatch) ∧
    (v.intoBool = none →
      set_value s 4 v = Except.error SettingsError.TypeMismatch) ∧
    (v.intoBool = none →
      set_value s 5 v = Except.error SettingsError.TypeMismatch) := by
  refine ⟨?_, fun g => rfl, fun b => rfl, fun cl => rfl, fun cl => rfl,
    fun b => rfl, fun b => rfl, ?_, ?_, ?_, ?_, ?_, ?_⟩
  · intro index h
    rcases index with _ | _ | _ | _ | _ | _ | index
    · omega
    · omega
    · omega
    · omega
    · omega
    · omega
    · rfl
  all_goals intro hmis
  all_goals simp [set_value, hmis]

/-- C8 witness: index six is out of range for the six settings, and index five
with a boolean assigns the Show Attempt Details field. -/
theorem set_value_spec_witness :
    set_value Settings.initial 6 (Value.ofBool true)
      = Except.error SettingsError.IndexOutOfRange ∧
    set_value Settings.initial 5 (Value.ofBool true)
      = Except.ok { Settings.initial with show_attempt_details := true } := by
  have h := set_value_spec Settings.initial (Value.ofBool true)
  exact ⟨h.1 6 (by omega), h.2.2.2.2.2.2.1 true⟩

lemma parse_ol_foldl (tags : List Tag)
    (acc : Settings × Bool × Bool × List Nat)
    (hall : ∀ b, Tag.OverrideTextColor b ∈ tags → b = false)
    (hacc : acc.2.1 = false) :
    (tags.foldl parseStep acc).2.1 = false := by
  induction tags generalizing acc with
  | nil => exact hacc
  | cons tag rest ih =>
      obtain ⟨s0, ol0, ov0, bg0⟩ := acc
      simp only at hacc
      refine ih (parseStep (s0, ol0, ov0, bg0) tag)
        (fun b hb => hall b (List.mem_cons_of_mem _ hb)) ?_
      cases tag with
      | OverrideTextColor b =>
          have hb := hall b (List.mem_cons_self _ _)
          simp [parseStep, hb]
      | Background p => simp [parseStep, hacc]
      | TextColor cl => simp [parseStep, hacc]
      | ChanceColor cl => simp [parseStep, hacc]
      | OverrideChanceColor b => simp [parseStep, hacc]
      | Display2Rows b => simp [parseStep, hacc]
      | Unknown => simp [parseStep, hacc]

lemma parse_ov_foldl (tags : List Tag)
    (acc : Settings × Bool × Bool × List Nat)
    (hall : ∀ b, Tag.OverrideChanceColor b ∈ tags → b = false)
    (hacc : acc.2.2.1 = false) :
    (tags.foldl parseStep acc).2.2.1 = false := by
  induction tags generalizing acc with
  | nil => exact hacc
  | cons tag rest ih =>
      obtain ⟨s0, ol0, ov0, bg0⟩ := acc
      simp only at hacc
      refine ih (parseStep (s0, ol0, ov0, bg0) tag)
        (fun b hb => hall b (List.mem_cons_of_mem _ hb)) ?_
      cases tag with
      | OverrideChanceColor b =>
          have hb := hall b (List.mem_cons_self _ _)
          simp [parseStep, hb]
      | Background p => simp [parseStep, hacc]
      | TextColor cl => simp [parseStep, hacc]
      | ChanceColor cl => simp [parseStep, hacc]
      | OverrideTextColor b => simp [parseStep, hacc]
      | Display2Rows b => simp [parseStep, hacc]
      | Unknown => simp [parseStep, hacc]

/-- C9: whenever every OverrideTextColor tag of the parsed stream carries
false (in particular when the tag is absent), the parsed label color is left
as inherit from the layout, whatever color any TextColor tag carried; and
likewise for OverrideChanceColor and the value color. -/
theorem parse_override_inherit_spec (tags : List Tag) (component : Component) :
    ((∀ b, Tag.OverrideTextColor b ∈ tags → b = false) →
      ( settings tags component).settings.label_color = none) ∧
    ((∀ b, Tag.OverrideChanceColor b ∈ tags → b = false) →
      ( settings tags component).settings.value_color = none) := by
  constructor
  · intro hall
    have hol := parse_ol_foldl tags (component.settings, false, false, [])
      hall rfl
    simp [settings, hol, apply_ite]
  · intro hall
    have hov := parse_ov_foldl tags (component.settings, false, false, [])
      hall rfl
    simp [settings, hov, apply_ite]

/-- C9 witness: a stream carrying a label color tag and an enabled value
override but no label override leaves the label color as inherit. -/
theorem parse_override_inherit_spec_witness :
    ( settings [Tag.TextColor (Color.mk 1 2 3 4), Tag.OverrideChanceColor true]
      Component.new).settings.label_color = none :=
  (parse_override_inherit_spec
    [Tag.TextColor (Color.mk 1 2 3 4), Tag.OverrideChanceColor true]
    Component.new).1 (by decide)
